import Mathlib

/-!
Verification of the logshare client library (cloudflare/logshare) against its
natural-language specification.  The Go sources (logshare.go and the CLI in
cmd/logshare-cli/main.go) are shallowly embedded below: bytes are naturals,
io.Writer sinks are explicit states, the HTTP exchange is a pure function of
the response the server would deliver, and Go errors are their message
character lists.
-/

set_option maxHeartbeats 1000000

namespace Logshare

/-! ### Decimal rendering (model of Go fmt %d / strconv) -/

/-- Decimal digit to character, as produced by Go integer formatting. -/
def decChar : Nat → Char
  | 0 => '0'
  | 1 => '1'
  | 2 => '2'
  | 3 => '3'
  | 4 => '4'
  | 5 => '5'
  | 6 => '6'
  | 7 => '7'
  | 8 => '8'
  | 9 => '9'
  | _ => '0'

/-- Fuel-driven most-significant-first digit rendering of a natural number. -/
def natDecGo : Nat → Nat → List Char
  | 0, _ => []
  | fuel + 1, n => if n = 0 then [] else natDecGo fuel (n / 10) ++ [decChar (n % 10)]

/-- Decimal rendering of a natural number, the model of Go %d on nonnegative ints. -/
def natDec (n : Nat) : List Char :=
  if n = 0 then ['0'] else natDecGo n n

/-- Decimal rendering of an integer, the model of strconv.FormatInt(i, 10). -/
def intDec (i : Int) : List Char :=
  if i < 0 then '-' :: natDec i.natAbs else natDec i.natAbs

/-! ### The line scanner: model of bufio.Scanner with bufio.ScanLines

`streamLogs` constructs `bufio.NewScanner(r)` and never enlarges its buffer,
so the scanner tokenises the body on newline bytes (10), drops one trailing
carriage return (13) from each token, and fails with ErrTooLong as soon as a
line reaches `bufio.MaxScanTokenSize` (64 KiB) bytes without a newline. -/

/-- bufio.MaxScanTokenSize, the scanner's default maximal token size. -/
def maxTokenSize : Nat := 65536

/-- dropCR from bufio.ScanLines: drop one trailing carriage return. -/
def dropCR (l : List Nat) : List Nat :=
  if l.getLast? = some 13 then l.dropLast else l

/-- Split a byte list at every newline byte; always returns at least one
(possibly empty) segment, the final one being the part after the last newline. -/
def splitOnNl : List Nat → List (List Nat)
  | [] => [[]]
  | b :: rest =>
    if b = 10 then [] :: splitOnNl rest
    else
      match splitOnNl rest with
      | [] => [[b]]
      | s :: ss => (b :: s) :: ss

/-- State of the scanner machine: the bytes of the current unterminated line,
the tokens emitted so far, and whether ErrTooLong has occurred. -/
structure ScanSt where
  buf : List Nat
  toks : List (List Nat)
  err : Bool
  deriving DecidableEq

/-- One byte of scanner progress.  A full buffer (the current line already
holds maxTokenSize bytes with no newline found) is ErrTooLong, after which the
scanner is stuck; otherwise a newline emits the buffered token (with one
trailing carriage return dropped) and any other byte is buffered. -/
def scanStep (st : ScanSt) (b : Nat) : ScanSt :=
  if st.err then st
  else if st.buf.length ≥ maxTokenSize then { st with err := true }
  else if b = 10 then { buf := [], toks := st.toks ++ [dropCR st.buf], err := false }
  else { st with buf := st.buf ++ [b] }

/-- Run the scanner over a whole body: the token list the `for scanner.Scan()`
loop observes and whether `scanner.Err()` is non-nil afterwards.  At end of
input a nonempty remainder below the size cap is emitted as a final token. -/
def scanBody (body : List Nat) : List (List Nat) × Bool :=
  if (body.foldl scanStep ⟨[], [], false⟩).err then
    ((body.foldl scanStep ⟨[], [], false⟩).toks, true)
  else if (body.foldl scanStep ⟨[], [], false⟩).buf.length ≥ maxTokenSize then
    ((body.foldl scanStep ⟨[], [], false⟩).toks, true)
  else if (body.foldl scanStep ⟨[], [], false⟩).buf.isEmpty then
    ((body.foldl scanStep ⟨[], [], false⟩).toks, false)
  else
    ((body.foldl scanStep ⟨[], [], false⟩).toks ++
      [dropCR (body.foldl scanStep ⟨[], [], false⟩).buf], false)

/-- The still-unterminated final line: the bytes after the last newline. -/
def lastSeg (l : List Nat) : List Nat :=
  ((l.reverse.takeWhile (fun b => b != 10)).reverse)

/-- Length of the longest segment in a segment list. -/
def listMax (ls : List (List Nat)) : Nat :=
  ls.foldr (fun s m => max s.length m) 0

/-- Length of the longest newline-delimited line of a body. -/
def maxSeg (l : List Nat) : Nat :=
  listMax (splitOnNl l)

/-! ### Destination sinks and io.MultiWriter fan-out -/

/-- A destination sink: whether its writes fail, and the byte chunks it has
successfully accepted so far. -/
structure SinkSt where
  fails : Bool
  written : List (List Nat)
  deriving DecidableEq

/-- io.MultiWriter semantics for one Write call: each sink receives the chunk
in order; the first failing sink stops the iteration, so later sinks do not
receive the chunk. -/
def multiWrite : List SinkSt → List Nat → List SinkSt × Bool
  | [], _ => ([], true)
  | s :: rest, p =>
    if s.fails then (s :: rest, false)
    else
      let r := multiWrite rest p
      ({ s with written := s.written ++ [p] } :: r.1, r.2)

/-- The body of the streaming loop: each token is written, then a lone newline
byte, through the multi-writer; the returned errors are discarded exactly as
`w.Write(scanner.Bytes()); w.Write([]byte("\n"))` discards them. -/
def streamSinks (sinks : List SinkSt) (toks : List (List Nat)) : List SinkSt :=
  toks.foldl (fun ss t => (multiWrite (multiWrite ss t).1 [10]).1) sinks

/-- streamLogs: scan the body, forward every token followed by a newline to
the sinks, and return the number of scanned tokens (incremented regardless of
write success), whether the scanner failed, and the final sink states. -/
def streamLogs (body : List Nat) (sinks : List SinkSt) : Nat × Bool × List SinkSt :=
  ((scanBody body).1.length, (scanBody body).2, streamSinks sinks (scanBody body).1)

/-- Number of complete newline-terminated records a sink's accepted chunk list
contains, given the loop's token/newline write pattern. -/
def countRecords : List (List Nat) → Nat
  | _ :: nl :: rest => if nl = [10] then countRecords rest + 1 else 0
  | _ => 0

/-- The chunk sequence a sink accepts when every write succeeds. -/
def pairChunks : List (List Nat) → List (List Nat)
  | [] => []
  | t :: ts => t :: [10] :: pairChunks ts

/-- A body made of newline-terminated records: each record's bytes followed
by one newline byte. -/
def joinNl : List (List Nat) → List Nat
  | [] => []
  | r :: rs => r ++ 10 :: joinNl rs

/-! ### Error messages (Go errors are compared by their message text) -/

/-- Characters of the shared message head produced by both errors.Errorf calls. -/
def msgHead : List Char := ("HTTP status ").data

/-- Message of the error returned for a non-2xx status: the model of
errors.Errorf("HTTP status %d: request failed: %s", status, body). -/
def apiErrMsg (status : Nat) (body : List Nat) : List Char :=
  msgHead ++ natDec status ++ (": request failed: ").data ++ body.map Char.ofNat

/-- Message of the error returned for HTTP 204: the model of
errors.Errorf("HTTP status %d: no logs available. ...", 204). -/
def noLogsMsg : List Char :=
  msgHead ++ natDec 204 ++
    (": no logs available. Check that Log Share is enabled for your domain or that you are not attempting to retrieve logs too quickly").data

/-- Message head of the wrapped scanner failure from streamLogs/request. -/
def streamFailMsg : List Char :=
  ("failed to stream logs: reading response:: bufio.Scanner: token too long").data

/-- The message text before the first colon; the discriminating observation a
caller can make on the two error messages. -/
def preColon (l : List Char) : List Char :=
  l.takeWhile (fun c => c != ':')

/-! ### Meta and the request classifier -/

/-- Meta from logshare.go: count, duration, status code, URL. -/
structure Meta where
  count : Nat
  duration : Int
  statusCode : Nat
  url : String
  deriving DecidableEq

/-- Client.request after the HTTP client returned a response: classify the
status, cap error bodies at 1,000,000 bytes, special-case 204, otherwise
stream.  Returns the Meta, the final sink states and the error message. -/
def request (sinks : List SinkSt) (u : String) (status : Nat) (body : List Nat)
    (dur : Int) : Meta × List SinkSt × Option (List Char) :=
  if status < 200 ∨ status > 299 then
    (⟨0, dur, status, u⟩, sinks, some (apiErrMsg status (body.take 1000000)))
  else if status = 204 then
    (⟨0, dur, status, u⟩, sinks, some noLogsMsg)
  else
    (⟨(streamLogs body sinks).1, dur, status, u⟩,
      (streamLogs body sinks).2.2,
      if (streamLogs body sinks).2.1 then some streamFailMsg else none)

/-! ### Query parameter maps: model of url.Values -/

/-- url.Values, as an association list from parameter names to rendered
values; url.Values.Set replaces any previous value for the key. -/
abbrev Values := List (String × List Char)

/-- url.Values.Set: remove previous bindings of the key, bind it to the value. -/
def vset (p : Values) (k : String) (v : List Char) : Values :=
  (List.filter (fun kv => kv.1 ≠ k) p) ++ [(k, v)]

/-- Look up the value bound to a parameter name. -/
def lookupParam : Values → String → Option (List Char)
  | [], _ => none
  | kv :: rest, k => if kv.1 = k then some kv.2 else lookupParam rest k

/-- Whether a parameter name occurs in the query at all. -/
def hasParam (p : Values) (k : String) : Bool :=
  (lookupParam p k).isSome

/-! ### Sampling rate rendering: model of strconv.FormatFloat(sample, 'f', 1, 64) -/

/-- Fixed-precision rendering with exactly one digit after the decimal point
(the sampling value is modelled as a rational). -/
def formatFixed1 (q : ℚ) : List Char :=
  (if round (q * 10) < 0 then ['-'] else []) ++
    natDec ((round (q * 10)).natAbs / 10) ++ '.' :: natDec ((round (q * 10)).natAbs % 10)

/-! ### The client and its construction (New) -/

/-- The fixed base endpoint apiURL from logshare.go. -/
def apiURL : String := "https://api.cloudflare.com/client/v4"

/-- Client from logshare.go; the HTTP client and header map are irrelevant to
the claims and elided, the io.Writer destination is the list of sinks the
io.MultiWriter fans out to. -/
structure Client where
  endpoint : String
  apiKey : String
  apiEmail : String
  byReceived : Bool
  sample : ℚ
  timestampFormat : String
  fields : List String
  dest : List SinkSt
  deriving DecidableEq

/-- Options from logshare.go.  Option types keep Go's nil/non-nil distinction
for the slice- and interface-typed fields. -/
structure GoOptions where
  byReceived : Bool
  timestampFormat : String
  sample : ℚ
  fields : Option (List String)
  dest : Option SinkSt
  multiDest : Option (List SinkSt)

/-- The default destination io.MultiWriter(os.Stdout): a single healthy sink. -/
def stdoutSink : SinkSt := ⟨false, []⟩

/-- New from logshare.go: validates only the credentials, defaults the
log-source variant to received when no Options value is supplied, and
assembles the destination sink list from Dest and MultiDest. -/
def New (apiKey apiEmail : String) (options : Option GoOptions) :
    Except String Client :=
  if apiKey = "" then .error ("apiKey cannot be empty")
  else if apiEmail = "" then .error ("apiEmail cannot be empty")
  else
    let byRecv : Bool := match options with
      | none => true
      | some o => o.byReceived
    let base : Client :=
      ⟨apiURL, apiKey, apiEmail, byRecv, 0, "", [], [stdoutSink]⟩
    match options with
    | none => .ok base
    | some o =>
      let md : Option (List SinkSt) := match o.dest with
        | none => o.multiDest
        | some d => some (o.multiDest.getD [] ++ [d])
      let dest : List SinkSt := match md with
        | none => [stdoutSink]
        | some l => l
      let flds : List String := match o.fields with
        | none => []
        | some fs => fs
      .ok ⟨apiURL, apiKey, apiEmail, byRecv, o.sample, o.timestampFormat, flds, dest⟩

/-! ### URL construction (buildURL, GetFromTimestamp, GetFromRayID) -/

/-- The path part of buildURL: {endpoint}/zones/{zoneID}/logs/{variant}. -/
def buildPath (c : Client) (zoneID : String) : String :=
  c.endpoint ++ ("/zones/") ++ zoneID ++ ("/logs/") ++
    (if c.byReceived then ("received") else ("requests"))

/-- The query-parameter part of buildURL: appends fields (only for the
received variant with a nonempty allowlist), sample (only when nonzero,
one-decimal fixed precision) and timestamps (only when configured). -/
def buildParams (c : Client) (params : Values) : Values :=
  let p1 := if c.byReceived ∧ c.fields.length ≥ 1
    then vset params ("fields") (String.intercalate (",") c.fields).data
    else params
  let p2 := if c.sample ≠ 0 then vset p1 ("sample") (formatFixed1 c.sample) else p1
  if c.timestampFormat ≠ "" then vset p2 ("timestamps") c.timestampFormat.data else p2

/-- buildURL assembles the path and the encoded parameters. -/
def buildURL (c : Client) (zoneID : String) (params : Values) : String × Values :=
  (buildPath c zoneID, buildParams c params)

/-- The query parameters GetFromTimestamp passes through buildURL: start
always, end only when positive, count only when positive. -/
def getFromTimestampParams (c : Client) (start e cnt : Int) : Values :=
  let p := vset [] ("start") (intDec start)
  let p := if e > 0 then vset p ("end") (intDec e) else p
  let p := if cnt > 0 then vset p ("count") (intDec cnt) else p
  buildParams c p

/-- Modelled from the spec: the library method GetFromRayID is called by the
CLI (src/cmd/logshare-cli/main.go) but its definition is not among the source
files; following the spec's Build-by-cursor operation and its query-parameter
table, it sets start_id to the resume cursor instead of start and applies the
same optional rules — end only when positive, count only when positive —
before going through buildURL. -/
def getFromRayIDParams (c : Client) (rayID : String) (e cnt : Int) : Values :=
  let p := vset [] ("start_id") rayID.data
  let p := if e > 0 then vset p ("end") (intDec e) else p
  let p := if cnt > 0 then vset p ("count") (intDec cnt) else p
  buildParams c p

/-! ### The CLI configuration validation (cmd/logshare-cli/main.go) -/

/-- The CLI's flag-derived config; fields not involved in validation or in
the claims are elided. -/
structure CliConfig where
  apiKey : String
  apiEmail : String
  zoneID : String
  zoneName : String
  sample : ℚ
  googleStorageBucket : String
  googleProjectID : String

/-- config.Validate from cmd/logshare-cli/main.go: credential presence, zone
presence, sampling range, and the Google Storage flag pairing. -/
def cliValidate (conf : CliConfig) : Option String :=
  if conf.apiKey = "" ∨ conf.apiEmail = "" then
    some ("Must provide both api-key and api-email")
  else if conf.zoneID = "" ∧ conf.zoneName = "" then
    some ("zone-name OR zone-id must be set")
  else if conf.sample ≠ 0 ∧ (conf.sample < 1 / 10 ∨ conf.sample > 9 / 10) then
    some ("sample must be between 0.1 and 0.9")
  else if ((conf.googleStorageBucket == "") ≠ (conf.googleProjectID == "")) then
    some ("Both google-storage-bucket and google-project-id must be provided to upload to Google Storage")
  else none

/-! ### Concrete inputs used to settle individual claims -/

/-- A single JSON record (a quoted string) of 65,537 bytes: one byte over the
scanner's token cap. -/
def bigRec : List Nat := 34 :: (List.replicate 65535 97 ++ [34])

/-- Options carrying the out-of-range sampling value 5.0. -/
def opts5 : GoOptions := ⟨false, "", 5, none, none, none⟩

/-- The client New builds from opts5: the sampling value survives construction. -/
def client5 : Client := ⟨apiURL, "key", "email", false, 5, "", [], [stdoutSink]⟩

/-- A zero-valued Options record: every field left at its Go zero value. -/
def optsZero : GoOptions := ⟨false, "", 0, none, none, none⟩

/-- A client with the received variant and a nonempty field allowlist. -/
def clientFields : Client := ⟨apiURL, "key", "email", true, 0, "", ["RayID"], [stdoutSink]⟩

end Logshare

namespace Logshare

/-! ### Quick sanity checks of the embedding -/

example : scanBody [97, 10] = ([[97]], false) := by decide

example : scanBody [97, 10, 98] = ([[97], [98]], false) := by decide

example : scanBody [] = ([], false) := by decide

example : scanBody [10, 10] = ([[], []], false) := by decide

example : scanBody [97, 13, 10] = ([[97]], false) := by decide

example : natDec 204 = ['2', '0', '4'] := by decide

example : intDec (-15) = ['-', '1', '5'] := by decide

example :
    streamLogs [97, 10] [⟨true, []⟩] = (1, false, [⟨true, []⟩]) := by decide

example :
    streamLogs [97, 10] [⟨false, []⟩] = (1, false, [⟨false, [[97], [10]]⟩]) := by
  decide

example : formatFixed1 (1 / 2) = ['0', '.', '5'] := by
  have h : round ((1 / 2 : ℚ) * 10) = (5 : ℤ) := by norm_num [round_eq]
  simp only [formatFixed1]
  rw [h]
  decide

example : formatFixed1 5 = ['5', '.', '0'] := by
  have h : round ((5 : ℚ) * 10) = (50 : ℤ) := by norm_num [round_eq]
  simp only [formatFixed1]
  rw [h]
  decide

example :
    hasParam (getFromTimestampParams ⟨apiURL, "k", "e", false, 0, "", [], []⟩ 7 0 0)
      ("end") = false := by decide

example :
    hasParam (getFromTimestampParams ⟨apiURL, "k", "e", false, 0, "", [], []⟩ 7 9 3)
      ("end") = true := by decide

example :
    lookupParam (getFromRayIDParams ⟨apiURL, "k", "e", true, 0, "", [], []⟩ "ray1" 0 0)
      ("start_id") = some ("ray1").data := by decide

example :
    cliValidate ⟨"k", "e", "z", "", 5, "", ""⟩ =
      some ("sample must be between 0.1 and 0.9") := by
  simp only [cliValidate]
  rw [if_neg (by decide), if_neg (by decide),
    if_pos ⟨by norm_num, Or.inr (by norm_num)⟩]

example :
    cliValidate ⟨"k", "e", "z", "", 1 / 2, "", ""⟩ = none := by
  simp only [cliValidate]
  rw [if_neg (by decide), if_neg (by decide), if_neg (by norm_num),
    if_neg (by decide)]

/-! ### Scanner lemmas -/

theorem scanStep_of_err {st : ScanSt} (h : st.err = true) (b : Nat) :
    scanStep st b = st := by
  simp [scanStep, h]

theorem foldl_scanStep_of_err {st : ScanSt} (h : st.err = true) (l : List Nat) :
    l.foldl scanStep st = st := by
  induction l with
  | nil => rfl
  | cons b rest ih => simp [List.foldl_cons, scanStep_of_err h, ih]

theorem foldl_scanStep_push (r : List Nat) :
    ∀ buf T, 10 ∉ r → buf.length + r.length ≤ maxTokenSize →
      r.foldl scanStep ⟨buf, T, false⟩ = ⟨buf ++ r, T, false⟩ := by
  induction r with
  | nil => intro buf T _ _; simp
  | cons b rest ih =>
    intro buf T hmem hlen
    have hb : b ≠ 10 := fun h => hmem (h ▸ List.mem_cons_self b rest)
    have hlt : buf.length < maxTokenSize := by
      simp [List.length_cons] at hlen; omega
    have hstep : scanStep ⟨buf, T, false⟩ b = ⟨buf ++ [b], T, false⟩ := by
      simp [scanStep, Nat.not_le.mpr hlt, hb]
    rw [List.foldl_cons, hstep,
      ih (buf ++ [b]) T (fun h => hmem (List.mem_cons_of_mem b h))
        (by simp [List.length_append] at hlen ⊢; omega)]
    simp

theorem foldl_scanStep_line (r : List Nat) (T : List (List Nat))
    (hmem : 10 ∉ r) (hlen : r.length < maxTokenSize) (rest : List Nat) :
    (r ++ 10 :: rest).foldl scanStep ⟨[], T, false⟩ =
      rest.foldl scanStep ⟨[], T ++ [dropCR r], false⟩ := by
  rw [List.foldl_append]
  rw [foldl_scanStep_push r [] T hmem (by simpa using Nat.le_of_lt hlen)]
  simp only [List.foldl_cons]
  have hstep : scanStep ⟨[] ++ r, T, false⟩ 10 = ⟨[], T ++ [dropCR r], false⟩ := by
    simp [scanStep, Nat.not_le.mpr hlen]
  rw [hstep]

theorem foldl_scanStep_joinNl (recs : List (List Nat)) :
    ∀ T, (∀ r ∈ recs, 10 ∉ r ∧ r.length < maxTokenSize) →
      (joinNl recs).foldl scanStep ⟨[], T, false⟩ =
        ⟨[], T ++ recs.map dropCR, false⟩ := by
  induction recs with
  | nil => intro T _; simp [joinNl]
  | cons r rs ih =>
    intro T h
    have hr := h r (List.mem_cons_self r rs)
    rw [joinNl, foldl_scanStep_line r T hr.1 hr.2,
      ih (T ++ [dropCR r]) (fun x hx => h x (List.mem_cons_of_mem r hx))]
    simp

theorem scanBody_joinNl (recs : List (List Nat))
    (h : ∀ r ∈ recs, 10 ∉ r ∧ r.length < maxTokenSize) :
    scanBody (joinNl recs) = (recs.map dropCR, false) := by
  rw [scanBody, foldl_scanStep_joinNl recs [] h]
  simp [maxTokenSize]

theorem foldl_scanStep_too_long (r : List Nat) :
    ∀ buf T, r ≠ [] → 10 ∉ r → maxTokenSize < buf.length + r.length →
      ∃ bufE, r.foldl scanStep ⟨buf, T, false⟩ = ⟨bufE, T, true⟩ := by
  induction r with
  | nil => intro _ _ hne _ _; exact absurd rfl hne
  | cons b rest ih =>
    intro buf T _ hmem hlen
    by_cases hfull : buf.length ≥ maxTokenSize
    · refine ⟨buf, ?_⟩
      have hstep : scanStep ⟨buf, T, false⟩ b = ⟨buf, T, true⟩ := by
        simp [scanStep, hfull]
      rw [List.foldl_cons, hstep, foldl_scanStep_of_err rfl]
    · have hb : b ≠ 10 := fun h => hmem (h ▸ List.mem_cons_self b rest)
      have hstep : scanStep ⟨buf, T, false⟩ b = ⟨buf ++ [b], T, false⟩ := by
        simp [scanStep, hfull, hb]
      rcases rest with _ | ⟨c, rest2⟩
      · exfalso
        simp at hlen
        omega
      · rw [List.foldl_cons, hstep]
        exact ih (buf ++ [b]) T (by simp)
          (fun h => hmem (List.mem_cons_of_mem b h))
          (by simp [List.length_append] at hlen ⊢; omega)

/-! ### Sink fan-out lemmas -/

theorem multiWrite_good (p : List Nat) :
    ∀ sinks : List SinkSt, (∀ s ∈ sinks, s.fails = false) →
      multiWrite sinks p =
        (sinks.map (fun s => ⟨s.fails, s.written ++ [p]⟩), true) := by
  intro sinks
  induction sinks with
  | nil => intro _; rfl
  | cons s rest ih =>
    intro h
    have hs : s.fails = false := h s (List.mem_cons_self s rest)
    rw [multiWrite, if_neg (by simp [hs]),
      ih (fun x hx => h x (List.mem_cons_of_mem s hx))]
    simp

theorem streamSinks_good (toks : List (List Nat)) :
    ∀ sinks : List SinkSt, (∀ s ∈ sinks, s.fails = false) →
      streamSinks sinks toks =
        sinks.map (fun s => ⟨s.fails, s.written ++ pairChunks toks⟩) := by
  induction toks with
  | nil =>
    intro sinks _
    rw [streamSinks, List.foldl_nil]
    simp only [pairChunks, List.append_nil]
    exact (List.map_id sinks).symm
  | cons t ts ih =>
    intro sinks h
    have step : (multiWrite (multiWrite sinks t).1 [10]).1 =
        sinks.map (fun s => ⟨s.fails, s.written ++ [t, [10]]⟩) := by
      rw [multiWrite_good t sinks h]
      rw [multiWrite_good [10] _ (by
        intro s hs
        rcases List.mem_map.mp hs with ⟨x, hx, rfl⟩
        exact h x hx)]
      rw [List.map_map]
      simp [Function.comp]
    rw [streamSinks, List.foldl_cons]
    have hrest : ∀ s ∈ sinks.map (fun s => (⟨s.fails, s.written ++ [t, [10]]⟩ : SinkSt)),
        s.fails = false := by
      intro s hs
      rcases List.mem_map.mp hs with ⟨x, hx, rfl⟩
      exact h x hx
    calc (ts.foldl (fun ss u => (multiWrite (multiWrite ss u).1 [10]).1)
            ((multiWrite (multiWrite sinks t).1 [10]).1))
        = streamSinks ((multiWrite (multiWrite sinks t).1 [10]).1) ts := rfl
      _ = streamSinks (sinks.map (fun s => ⟨s.fails, s.written ++ [t, [10]]⟩)) ts := by
          rw [step]
      _ = sinks.map (fun s => ⟨s.fails, s.written ++ pairChunks (t :: ts)⟩) := by
          rw [ih _ hrest, List.map_map]
          simp [Function.comp, pairChunks]

theorem countRecords_pairChunks (toks : List (List Nat)) :
    countRecords (pairChunks toks) = toks.length := by
  induction toks with
  | nil => rfl
  | cons t ts ih => simp [pairChunks, countRecords, ih]

/-! ### Decimal rendering lemmas -/

theorem natDecGo_eq_digits :
    ∀ fuel n, n ≤ fuel → natDecGo fuel n = (Nat.digits 10 n).reverse.map decChar := by
  intro fuel
  induction fuel with
  | zero =>
    intro n hn
    have : n = 0 := Nat.le_zero.mp hn
    subst this
    simp [natDecGo]
  | succ f ih =>
    intro n hn
    by_cases h0 : n = 0
    · subst h0; simp [natDecGo]
    · have hpos : 0 < n := Nat.pos_of_ne_zero h0
      rw [natDecGo, if_neg h0]
      rw [Nat.digits_def' (by norm_num : (1 : Nat) < 10) hpos]
      rw [List.reverse_cons, List.map_append]
      rw [ih (n / 10) (by
        have := Nat.div_lt_self hpos (by norm_num : (1 : Nat) < 10)
        omega)]
      simp

theorem natDec_eq_digits (n : Nat) (h : n ≠ 0) :
    natDec n = (Nat.digits 10 n).reverse.map decChar := by
  rw [natDec, if_neg h]
  exact natDecGo_eq_digits n n (Nat.le_refl n)

theorem natDec_no_colon (n : Nat) : ∀ a ∈ natDec n, a ≠ ':' := by
  by_cases h0 : n = 0
  · subst h0; intro a ha; simp [natDec] at ha; subst ha; decide
  · rw [natDec_eq_digits n h0]
    intro a ha
    rcases List.mem_map.mp ha with ⟨d, hd, rfl⟩
    have hd10 : d < 10 :=
      Nat.digits_lt_base (by norm_num) (List.mem_reverse.mp hd)
    revert hd10
    exact (by decide : ∀ d, d < 10 → decChar d ≠ ':') d

theorem preColon_append (xs r : List Char) (h : ∀ a ∈ xs, a ≠ ':') :
    preColon (xs ++ ':' :: r) = xs := by
  induction xs with
  | nil => simp [preColon, List.takeWhile]
  | cons a as ih =>
    have ha : a ≠ ':' := h a (List.mem_cons_self a as)
    have ih' := ih (fun x hx => h x (List.mem_cons_of_mem a hx))
    simp only [preColon] at ih' ⊢
    simp [List.takeWhile_cons, ha, ih']

theorem natDec_eq_204 (s : Nat) (h : natDec s = ['2', '0', '4']) : s = 204 := by
  by_cases h0 : s = 0
  · subst h0; simp [natDec] at h
  · rw [natDec_eq_digits s h0] at h
    have hlen : (Nat.digits 10 s).reverse.length = 3 := by
      have := congrArg List.length h
      simpa using this
    rcases hrev : (Nat.digits 10 s).reverse with _ | ⟨a, _ | ⟨b, _ | ⟨c, tail⟩⟩⟩ <;>
      rw [hrev] at h hlen <;> simp at hlen
    have htail : tail = [] := by
      simpa using hlen
    subst htail
    simp only [List.map_cons, List.map_nil] at h
    have ha : decChar a = '2' := by injection h with h1 h2
    have hbc : decChar b = '0' ∧ decChar c = '4' := by
      injection h with h1 h2
      injection h2 with h3 h4
      injection h4 with h5 h6
      exact ⟨h3, h5⟩
    have hmema : a ∈ Nat.digits 10 s := List.mem_reverse.mp (by rw [hrev]; simp)
    have hmemb : b ∈ Nat.digits 10 s := List.mem_reverse.mp (by rw [hrev]; simp)
    have hmemc : c ∈ Nat.digits 10 s := List.mem_reverse.mp (by rw [hrev]; simp)
    have ha10 : a < 10 := Nat.digits_lt_base (by norm_num) hmema
    have hb10 : b < 10 := Nat.digits_lt_base (by norm_num) hmemb
    have hc10 : c < 10 := Nat.digits_lt_base (by norm_num) hmemc
    have ha2 : a = 2 := (by decide : ∀ d, d < 10 → decChar d = '2' → d = 2) a ha10 ha
    have hb0 : b = 0 := (by decide : ∀ d, d < 10 → decChar d = '0' → d = 0) b hb10 hbc.1
    have hc4 : c = 4 := (by decide : ∀ d, d < 10 → decChar d = '4' → d = 4) c hc10 hbc.2
    have hdig : Nat.digits 10 s = [c, b, a] := by
      have := congrArg List.reverse hrev
      simpa using this
    have hofd := Nat.ofDigits_digits 10 s
    rw [hdig, ha2, hb0, hc4] at hofd
    simpa [Nat.ofDigits] using hofd.symm

theorem apiErrMsg_ne_noLogsMsg (s : Nat) (b : List Nat)
    (h : s < 200 ∨ 299 < s) : apiErrMsg s b ≠ noLogsMsg := by
  intro heq
  simp only [apiErrMsg, noLogsMsg, List.append_assoc] at heq
  have h2 := List.append_cancel_left heq
  simp only [List.cons_append] at h2
  have h3 := congrArg preColon h2
  rw [preColon_append _ _ (natDec_no_colon s),
    preColon_append _ _ (natDec_no_colon 204)] at h3
  have hs : s = 204 := natDec_eq_204 s (by rw [h3]; decide)
  omega

/-! ### Query parameter lemmas -/

theorem lookupParam_append_none (p q : Values) (k : String)
    (h : ∀ kv ∈ p, kv.1 ≠ k) : lookupParam (p ++ q) k = lookupParam q k := by
  induction p with
  | nil => rfl
  | cons kv rest ih =>
    rw [List.cons_append, lookupParam,
      if_neg (h kv (List.mem_cons_self kv rest))]
    exact ih (fun x hx => h x (List.mem_cons_of_mem kv hx))

theorem lookupParam_vset_self (p : Values) (k : String) (v : List Char) :
    lookupParam (vset p k v) k = some v := by
  rw [vset, lookupParam_append_none]
  · simp [lookupParam]
  · intro kv hkv
    have := List.of_mem_filter hkv
    simpa using this

theorem lookupParam_append (p q : Values) (k : String) :
    lookupParam (p ++ q) k =
      match lookupParam p k with
      | some v => some v
      | none => lookupParam q k := by
  induction p with
  | nil => rfl
  | cons kv rest ih =>
    rw [List.cons_append, lookupParam, lookupParam]
    rcases em (kv.1 = k) with h | h
    · rw [if_pos h, if_pos h]
    · rw [if_neg h, if_neg h, ih]

theorem lookupParam_filter_ne (p : Values) (k k' : String) (h : k' ≠ k) :
    lookupParam (List.filter (fun kv => kv.1 ≠ k) p) k' = lookupParam p k' := by
  induction p with
  | nil => rfl
  | cons kv rest ih =>
    rw [List.filter_cons]
    rcases em (kv.1 = k) with hk | hk
    · rw [if_neg (by simp [hk]), lookupParam, if_neg (fun h2 => h (by rw [← h2, hk]))]
      exact ih
    · rw [if_pos (by simpa using hk), lookupParam, lookupParam]
      rcases em (kv.1 = k') with h2 | h2
      · rw [if_pos h2, if_pos h2]
      · rw [if_neg h2, if_neg h2, ih]

theorem lookupParam_vset_ne (p : Values) (k : String) (v : List Char)
    (k' : String) (h : k' ≠ k) :
    lookupParam (vset p k v) k' = lookupParam p k' := by
  rw [vset, lookupParam_append, lookupParam_filter_ne p k k' h]
  rcases hl : lookupParam p k' with _ | v'
  · rw [lookupParam, if_neg (fun h2 => h h2.symm)]
    rfl
  · rfl

theorem hasParam_vset_self (p : Values) (k : String) (v : List Char) :
    hasParam (vset p k v) k = true := by
  simp [hasParam, lookupParam_vset_self]

theorem hasParam_vset_ne (p : Values) (k : String) (v : List Char)
    (k' : String) (h : k' ≠ k) : hasParam (vset p k v) k' = hasParam p k' := by
  simp [hasParam, lookupParam_vset_ne p k v k' h]

theorem lookupParam_buildParams (c : Client) (p : Values) (k : String)
    (h1 : k ≠ "fields") (h2 : k ≠ "sample") (h3 : k ≠ "timestamps") :
    lookupParam (buildParams c p) k = lookupParam p k := by
  rw [buildParams]
  split_ifs <;> simp [lookupParam_vset_ne, h1, h2, h3]

theorem hasParam_buildParams (c : Client) (p : Values) (k : String)
    (h1 : k ≠ "fields") (h2 : k ≠ "sample") (h3 : k ≠ "timestamps") :
    hasParam (buildParams c p) k = hasParam p k := by
  simp [hasParam, lookupParam_buildParams c p k h1 h2 h3]

/-! ### takeWhile helpers -/

theorem takeWhile_all {α : Type} (p : α → Bool) (xs : List α)
    (h : ∀ x ∈ xs, p x = true) : xs.takeWhile p = xs := by
  induction xs with
  | nil => rfl
  | cons a as ih =>
    rw [List.takeWhile_cons, h a (List.mem_cons_self a as)]
    rw [ih (fun x hx => h x (List.mem_cons_of_mem a hx))]
    simp

theorem takeWhile_append_all {α : Type} (p : α → Bool) (xs ys : List α)
    (h : ∀ x ∈ xs, p x = true) :
    (xs ++ ys).takeWhile p = xs ++ ys.takeWhile p := by
  induction xs with
  | nil => rfl
  | cons a as ih =>
    rw [List.cons_append, List.takeWhile_cons, h a (List.mem_cons_self a as)]
    rw [ih (fun x hx => h x (List.mem_cons_of_mem a hx))]
    rfl

theorem takeWhile_append_stop {α : Type} (p : α → Bool) (xs ys : List α)
    (h : ∃ x ∈ xs, p x = false) :
    (xs ++ ys).takeWhile p = xs.takeWhile p := by
  induction xs with
  | nil =>
    rcases h with ⟨x, hx, _⟩
    exact absurd hx (List.not_mem_nil x)
  | cons a as ih =>
    rw [List.cons_append, List.takeWhile_cons, List.takeWhile_cons]
    rcases ha : p a with _ | _
    · simp
    · have h2 : ∃ x ∈ as, p x = false := by
        rcases h with ⟨x, hx, hpx⟩
        rcases List.mem_cons.mp hx with rfl | hx2
        · rw [ha] at hpx; simp at hpx
        · exact ⟨x, hx2, hpx⟩
      rw [ih h2]

theorem takeWhile_append_single_fail {α : Type} (p : α → Bool) (xs : List α)
    (a : α) (ha : p a = false) :
    (xs ++ [a]).takeWhile p = xs.takeWhile p := by
  by_cases hall : ∀ x ∈ xs, p x = true
  · rw [takeWhile_append_all p xs [a] hall, takeWhile_all p xs hall,
      List.takeWhile_cons, ha]
    simp
  · push_neg at hall
    rcases hall with ⟨x, hx, hpx⟩
    exact takeWhile_append_stop p xs [a] ⟨x, hx, by simpa using hpx⟩

/-! ### lastSeg lemmas -/

theorem lastSeg_nil : lastSeg [] = [] := rfl

theorem lastSeg_append_nl (p : List Nat) : lastSeg (p ++ [10]) = [] := by
  rw [lastSeg, List.reverse_append]
  simp [List.takeWhile_cons]

theorem lastSeg_append_byte (p : List Nat) (b : Nat) (hb : b ≠ 10) :
    lastSeg (p ++ [b]) = lastSeg p ++ [b] := by
  rw [lastSeg, List.reverse_append]
  have hpb : (b != 10) = true := by simpa using hb
  simp only [List.reverse_cons, List.reverse_nil, List.nil_append,
    List.singleton_append, List.takeWhile_cons, hpb, if_true]
  rfl

theorem lastSeg_cons_nl (rest : List Nat) : lastSeg (10 :: rest) = lastSeg rest := by
  rw [lastSeg, show (10 :: rest).reverse = rest.reverse ++ [10] by simp]
  rw [takeWhile_append_single_fail _ _ _ (by simp)]
  rfl

theorem lastSeg_cons_no_nl (b : Nat) (rest : List Nat) (hb : b ≠ 10)
    (hmem : 10 ∉ rest) : lastSeg (b :: rest) = b :: rest := by
  rw [lastSeg, show (b :: rest).reverse = rest.reverse ++ [b] by simp]
  rw [takeWhile_all]
  · simp
  · intro x hx
    rcases List.mem_append.mp hx with hx2 | hx2
    · have : x ≠ 10 := fun h => hmem (h ▸ List.mem_reverse.mp hx2)
      simpa using this
    · have : x = b := by simpa using hx2
      subst this
      simpa using hb

theorem lastSeg_cons_mem_nl (b : Nat) (rest : List Nat) (hmem : 10 ∈ rest) :
    lastSeg (b :: rest) = lastSeg rest := by
  rw [lastSeg, show (b :: rest).reverse = rest.reverse ++ [b] by simp]
  rw [takeWhile_append_stop _ _ _ ⟨10, List.mem_reverse.mpr hmem, by simp⟩]
  rfl

/-! ### splitOnNl and maxSeg lemmas -/

theorem splitOnNl_ne_nil (l : List Nat) : splitOnNl l ≠ [] := by
  cases l with
  | nil => simp [splitOnNl]
  | cons b rest =>
    rw [splitOnNl]
    by_cases hb : b = 10
    · simp [hb]
    · rw [if_neg hb]
      rcases hsp : splitOnNl rest with _ | ⟨s, ss⟩ <;> simp

theorem splitOnNl_no_nl (l : List Nat) (h : 10 ∉ l) : splitOnNl l = [l] := by
  induction l with
  | nil => rfl
  | cons b rest ih =>
    have hb : b ≠ 10 := fun h2 => h (h2 ▸ List.mem_cons_self b rest)
    rw [splitOnNl, if_neg hb, ih (fun h2 => h (List.mem_cons_of_mem b h2))]

theorem listMax_cons (s : List Nat) (ss : List (List Nat)) :
    listMax (s :: ss) = max s.length (listMax ss) := rfl

theorem splitOnNl_cons_nl (rest : List Nat) :
    splitOnNl (10 :: rest) = [] :: splitOnNl rest := by
  rw [splitOnNl]
  simp

theorem splitOnNl_cons_byte (b : Nat) (rest : List Nat) (hb : b ≠ 10)
    (s : List Nat) (ss : List (List Nat)) (hsp : splitOnNl rest = s :: ss) :
    splitOnNl (b :: rest) = (b :: s) :: ss := by
  rw [splitOnNl, if_neg hb, hsp]

theorem maxSeg_cons_nl (rest : List Nat) : maxSeg (10 :: rest) = maxSeg rest := by
  rw [maxSeg, splitOnNl_cons_nl, listMax_cons]
  simp [maxSeg]

theorem lastSeg_le_maxSeg (p : List Nat) : (lastSeg p).length ≤ maxSeg p := by
  induction p with
  | nil => simp [lastSeg_nil]
  | cons b rest ih =>
    by_cases hb : b = 10
    · subst hb
      rw [lastSeg_cons_nl, maxSeg_cons_nl]
      exact ih
    · by_cases hmem : 10 ∈ rest
      · rw [lastSeg_cons_mem_nl b rest hmem]
        obtain ⟨s, ss, hsp⟩ := List.exists_cons_of_ne_nil (splitOnNl_ne_nil rest)
        rw [maxSeg, splitOnNl_cons_byte b rest hb s ss hsp, listMax_cons]
        calc (lastSeg rest).length ≤ maxSeg rest := ih
          _ = max s.length (listMax ss) := by rw [maxSeg, hsp, listMax_cons]
          _ ≤ max (b :: s).length (listMax ss) := by
              exact max_le_max (by simp) (Nat.le_refl _)
      · rw [lastSeg_cons_no_nl b rest hb hmem]
        rw [maxSeg, splitOnNl_no_nl (b :: rest) (by
          intro h2
          rcases List.mem_cons.mp h2 with h3 | h3
          · exact hb h3.symm
          · exact hmem h3)]
        simp [listMax]

theorem splitOnNl_mono (q : List Nat) : ∀ p : List Nat,
    ((splitOnNl p).headD []).length ≤ ((splitOnNl (p ++ q)).headD []).length ∧
      listMax (splitOnNl p).tail ≤ listMax (splitOnNl (p ++ q)).tail := by
  intro p
  induction p with
  | nil =>
    constructor
    · simp [splitOnNl]
    · simp [splitOnNl, listMax]
  | cons b rest ih =>
    by_cases hb : b = 10
    · subst hb
      rw [List.cons_append, splitOnNl_cons_nl, splitOnNl_cons_nl]
      constructor
      · simp
      · obtain ⟨s, ss, hsp⟩ := List.exists_cons_of_ne_nil (splitOnNl_ne_nil rest)
        obtain ⟨s2, ss2, hsp2⟩ :=
          List.exists_cons_of_ne_nil (splitOnNl_ne_nil (rest ++ q))
        simp only [List.tail_cons]
        rw [show listMax (splitOnNl rest) = max ((splitOnNl rest).headD []).length
            (listMax (splitOnNl rest).tail) by rw [hsp]; simp [listMax_cons]]
        rw [show listMax (splitOnNl (rest ++ q)) =
            max ((splitOnNl (rest ++ q)).headD []).length
            (listMax (splitOnNl (rest ++ q)).tail) by rw [hsp2]; simp [listMax_cons]]
        exact max_le_max ih.1 ih.2
    · obtain ⟨s, ss, hsp⟩ := List.exists_cons_of_ne_nil (splitOnNl_ne_nil rest)
      obtain ⟨s2, ss2, hsp2⟩ :=
        List.exists_cons_of_ne_nil (splitOnNl_ne_nil (rest ++ q))
      rw [List.cons_append, splitOnNl_cons_byte b rest hb s ss hsp,
        splitOnNl_cons_byte b (rest ++ q) hb s2 ss2 hsp2]
      have ih1 := ih.1
      have ih2 := ih.2
      rw [hsp, hsp2] at ih1 ih2
      simp only [List.headD_cons, List.tail_cons] at ih1 ih2 ⊢
      exact ⟨by simpa using Nat.succ_le_succ ih1, ih2⟩

theorem maxSeg_mono (p q : List Nat) : maxSeg p ≤ maxSeg (p ++ q) := by
  obtain ⟨s, ss, hsp⟩ := List.exists_cons_of_ne_nil (splitOnNl_ne_nil p)
  obtain ⟨s2, ss2, hsp2⟩ := List.exists_cons_of_ne_nil (splitOnNl_ne_nil (p ++ q))
  have h1 := (splitOnNl_mono q p).1
  have h2 := (splitOnNl_mono q p).2
  rw [hsp, hsp2] at h1 h2
  simp only [List.headD_cons, List.tail_cons] at h1 h2
  rw [maxSeg, maxSeg, hsp, hsp2, listMax_cons, listMax_cons]
  exact max_le_max h1 h2

/-! ### Assorted small helpers -/

theorem dropCR_eq_self (r : List Nat) (h : r.getLast? ≠ some 13) :
    dropCR r = r := by
  rw [dropCR, if_neg h]

theorem natDec_single (m : Nat) (h : m < 10) : natDec m = [decChar m] := by
  revert h
  exact (by decide : ∀ m, m < 10 → natDec m = [decChar m]) m

theorem natDec_chars (n : Nat) : ∀ a ∈ natDec n, ∃ m, m < 10 ∧ a = decChar m := by
  by_cases h0 : n = 0
  · subst h0
    intro a ha
    simp [natDec] at ha
    exact ⟨0, by norm_num, by rw [ha]; rfl⟩
  · rw [natDec_eq_digits n h0]
    intro a ha
    rcases List.mem_map.mp ha with ⟨d, hd, rfl⟩
    exact ⟨d, Nat.digits_lt_base (by norm_num) (List.mem_reverse.mp hd), rfl⟩

theorem rat_five_ne_zero : (5 : ℚ) ≠ 0 := by norm_num

theorem rat_five_out_of_range : (5 : ℚ) < 1 / 10 ∨ 9 / 10 < (5 : ℚ) := by
  right
  norm_num

theorem fields_cond_iff (c : Client) :
    (c.byReceived = true ∧ c.fields.length ≥ 1) ↔
      (c.byReceived = true ∧ c.fields ≠ []) := by
  constructor <;> rintro ⟨hb, hf⟩ <;> refine ⟨hb, ?_⟩
  · intro h
    rw [h] at hf
    simp at hf
  · rcases hcf : c.fields with _ | ⟨x, xs⟩
    · exact absurd hcf hf
    · simp

/-! ### The scanner buffer invariant -/

theorem scanFold_inv (p : List Nat) :
    (p.foldl scanStep ⟨[], [], false⟩).buf.length ≤ maxTokenSize ∧
      ((p.foldl scanStep ⟨[], [], false⟩).err = false →
        (p.foldl scanStep ⟨[], [], false⟩).buf = lastSeg p) := by
  induction p using List.reverseRecOn with
  | nil => exact ⟨by simp [maxTokenSize], fun _ => rfl⟩
  | append_singleton p b ih =>
    rw [List.foldl_append, List.foldl_cons, List.foldl_nil]
    rcases herr : (p.foldl scanStep ⟨[], [], false⟩).err with _ | _
    · have hbuf := ih.2 herr
      by_cases hfull : (p.foldl scanStep ⟨[], [], false⟩).buf.length ≥ maxTokenSize
      · rw [scanStep, if_neg (by simp [herr]), if_pos hfull]
        exact ⟨ih.1, fun h => by simp at h⟩
      · by_cases hb : b = 10
        · subst hb
          rw [scanStep, if_neg (by simp [herr]), if_neg hfull, if_pos rfl]
          exact ⟨by simp [maxTokenSize], fun _ => by simp [lastSeg_append_nl]⟩
        · rw [scanStep, if_neg (by simp [herr]), if_neg hfull, if_neg hb]
          constructor
          · simp only [List.length_append, List.length_cons, List.length_nil]
            omega
          · intro _
            simp only []
            rw [hbuf, lastSeg_append_byte p b hb]
    · rw [scanStep, if_pos (by simp [herr])]
      exact ⟨ih.1, fun h => absurd (h ▸ herr) (by simp [h])⟩

end Logshare

namespace Logshare

/-! ### Claim theorems -/

/-- Claim C1 counterexample: a 200 response holding one newline-terminated
record, streamed to a single sink whose writes fail, yields Meta.Count = 1
although not a single byte reached the sink — so a record IS counted even when
its bytes and trailing newline were not successfully written to all sinks. -/
theorem C1_count_not_written_counterexample :
    (request [⟨true, []⟩] "" 200 [97, 10] 0).1.count = 1 ∧
      (request [⟨true, []⟩] "" 200 [97, 10] 0).2.1 = [⟨true, []⟩] ∧
      countRecords ([] : List (List Nat)) = 0 := by
  decide

/-- Claim C1 (amended): for a successful (2xx, non-204) response the returned
Meta.Count equals the number of newline-terminated records written to every
destination sink provided every sink write succeeds (the loop ignores write
errors, so the proviso is necessary); for a non-2xx or 204 response Count is
0. -/
theorem C1_count_invariant (sinks : List SinkSt) (u : String) (status : Nat)
    (body : List Nat) (dur : Int)
    (hgood : ∀ s ∈ sinks, s.fails = false)
    (hempty : ∀ s ∈ sinks, s.written = []) :
    (200 ≤ status ∧ status ≤ 299 ∧ status ≠ 204 →
      ∀ s2 ∈ (request sinks u status body dur).2.1,
        countRecords s2.written = (request sinks u status body dur).1.count) ∧
      (status < 200 ∨ 299 < status ∨ status = 204 →
        (request sinks u status body dur).1.count = 0) := by
  constructor
  · rintro ⟨h1, h2, h3⟩ s2 hmem
    have hcond : ¬(status < 200 ∨ status > 299) := by omega
    rw [request, if_neg hcond, if_neg h3] at hmem ⊢
    rw [streamLogs] at hmem ⊢
    rw [streamSinks_good _ sinks hgood] at hmem
    rcases List.mem_map.mp hmem with ⟨x, hx, rfl⟩
    rw [hempty x hx, List.nil_append, countRecords_pairChunks]
  · rintro (h | h | h)
    · rw [request, if_pos (Or.inl h)]
    · rw [request, if_pos (Or.inr h)]
    · subst h
      rw [request, if_neg (by decide), if_pos rfl]

/-- Witness for C1: the amended invariant evaluated at a concrete 200 response
with one record and one healthy sink. -/
theorem C1_count_invariant_witness :
    (∀ s ∈ ([⟨false, []⟩] : List SinkSt), s.fails = false) ∧
      (∀ s ∈ ([⟨false, []⟩] : List SinkSt), s.written = []) ∧
      ((200 ≤ 200 ∧ 200 ≤ 299 ∧ 200 ≠ 204 →
        ∀ s2 ∈ (request [⟨false, []⟩] "" 200 [97, 10] 0).2.1,
          countRecords s2.written = (request [⟨false, []⟩] "" 200 [97, 10] 0).1.count) ∧
        (200 < 200 ∨ 299 < 200 ∨ 200 = 204 →
          (request [⟨false, []⟩] "" 200 [97, 10] 0).1.count = 0)) :=
  ⟨by decide, by decide,
    C1_count_invariant [⟨false, []⟩] "" 200 [97, 10] 0 (by decide) (by decide)⟩

/-- Claim C2 counterexample: a 200 response whose body is exactly one
newline-terminated JSON record of 65,537 bytes (a quoted string) is NOT
forwarded: the scanner's 64 KiB token cap aborts the stream, the sink receives
nothing, and Count = 0 rather than 1. -/
theorem C2_forwarding_counterexample :
    (request [⟨false, []⟩] "" 200 (joinNl [bigRec]) 0).1.count = 0 ∧
      (request [⟨false, []⟩] "" 200 (joinNl [bigRec]) 0).2.1 = [⟨false, []⟩] ∧
      (request [⟨false, []⟩] "" 200 (joinNl [bigRec]) 0).1.count ≠
        ([bigRec] : List (List Nat)).length := by
  have hne : bigRec ≠ [] := by
    rw [bigRec]
    exact List.cons_ne_nil _ _
  have hmem : 10 ∉ bigRec := by
    rw [bigRec]
    intro h
    rcases List.mem_cons.mp h with h1 | h1
    · exact absurd h1 (by decide)
    · rcases List.mem_append.mp h1 with h2 | h2
      · exact absurd (List.eq_of_mem_replicate h2) (by decide)
      · exact absurd (List.mem_singleton.mp h2) (by decide)
  have hlen : maxTokenSize < ([] : List Nat).length + bigRec.length := by
    have h1 : bigRec.length = 65537 := by
      rw [bigRec, List.length_cons, List.length_append, List.length_replicate]
      rfl
    rw [h1]
    decide
  obtain ⟨bufE, hfold⟩ := foldl_scanStep_too_long bigRec [] [] hne hmem hlen
  have hjoin : joinNl [bigRec] = bigRec ++ [10] := rfl
  have hfold2 : (joinNl [bigRec]).foldl scanStep ⟨[], [], false⟩ =
      ⟨bufE, [], true⟩ := by
    rw [hjoin, List.foldl_append, hfold, foldl_scanStep_of_err rfl]
  have hscan : scanBody (joinNl [bigRec]) = ([], true) := by
    rw [scanBody, hfold2]
    rfl
  have hreq : request [⟨false, []⟩] "" 200 (joinNl [bigRec]) 0 =
      (⟨0, 0, 200, ""⟩, [⟨false, []⟩], some streamFailMsg) := by
    rw [request, if_neg (by decide), if_neg (by decide), streamLogs, hscan]
    rfl
  rw [hreq]
  exact ⟨rfl, rfl, by decide⟩

/-- Claim C2 (amended): a 200 response whose body is N newline-terminated
records is forwarded in full — every configured sink receives each record
byte-identically followed by exactly one newline, and Count = N — provided
each record holds no newline byte, does not end in a carriage return, is
shorter than the scanner's 64 KiB token cap, and every sink write succeeds. -/
theorem C2_forwards_records (recs : List (List Nat)) (sinks : List SinkSt)
    (u : String) (dur : Int)
    (hrec : ∀ r ∈ recs, 10 ∉ r ∧ r.length < maxTokenSize ∧ r.getLast? ≠ some 13)
    (hgood : ∀ s ∈ sinks, s.fails = false)
    (hempty : ∀ s ∈ sinks, s.written = []) :
    (request sinks u 200 (joinNl recs) dur).1.count = recs.length ∧
      (request sinks u 200 (joinNl recs) dur).2.2 = none ∧
      ∀ s2 ∈ (request sinks u 200 (joinNl recs) dur).2.1,
        s2.written = pairChunks recs := by
  have hscan : scanBody (joinNl recs) = (recs.map dropCR, false) :=
    scanBody_joinNl recs (fun r hr => ⟨(hrec r hr).1, (hrec r hr).2.1⟩)
  have hmap : recs.map dropCR = recs := by
    calc recs.map dropCR
        = recs.map (fun r => r) :=
          List.map_congr_left (fun r hr => dropCR_eq_self r (hrec r hr).2.2)
      _ = recs := List.map_id' recs
  have hreq : request sinks u 200 (joinNl recs) dur =
      (⟨recs.length, dur, 200, u⟩, streamSinks sinks recs, none) := by
    rw [request, if_neg (by decide), if_neg (by decide), streamLogs, hscan, hmap]
    rfl
  rw [hreq]
  refine ⟨rfl, rfl, ?_⟩
  intro s2 hmem
  rw [streamSinks_good recs sinks hgood] at hmem
  rcases List.mem_map.mp hmem with ⟨x, hx, rfl⟩
  rw [hempty x hx, List.nil_append]

/-- Witness for C2: two small records through two healthy sinks. -/
theorem C2_forwards_records_witness :
    (∀ r ∈ ([[97], [98, 99]] : List (List Nat)),
      10 ∉ r ∧ r.length < maxTokenSize ∧ r.getLast? ≠ some 13) ∧
      (∀ s ∈ ([⟨false, []⟩, ⟨false, []⟩] : List SinkSt), s.fails = false) ∧
      (∀ s ∈ ([⟨false, []⟩, ⟨false, []⟩] : List SinkSt), s.written = []) ∧
      ((request [⟨false, []⟩, ⟨false, []⟩] "" 200 (joinNl [[97], [98, 99]]) 0).1.count =
        ([[97], [98, 99]] : List (List Nat)).length ∧
        (request [⟨false, []⟩, ⟨false, []⟩] "" 200 (joinNl [[97], [98, 99]]) 0).2.2 = none ∧
        ∀ s2 ∈ (request [⟨false, []⟩, ⟨false, []⟩] "" 200 (joinNl [[97], [98, 99]]) 0).2.1,
          s2.written = pairChunks [[97], [98, 99]]) :=
  ⟨by decide, by decide, by decide,
    C2_forwards_records [[97], [98, 99]] [⟨false, []⟩, ⟨false, []⟩] "" 0
      (by decide) (by decide) (by decide)⟩

end Logshare

namespace Logshare

/-- Claim C3: an HTTP 204 response yields a populated Meta with Count 0
together with the no-logs-available (empty result) error regardless of body
content; and that error message differs from the APIError message produced for
every non-2xx status, so a caller can distinguish the two conditions. -/
theorem C3_empty_result (sinks : List SinkSt) (u : String) (body : List Nat)
    (dur : Int) :
    (request sinks u 204 body dur =
      (⟨0, dur, 204, u⟩, sinks, some noLogsMsg)) ∧
      ∀ s b2, s < 200 ∨ 299 < s → apiErrMsg s b2 ≠ noLogsMsg := by
  constructor
  · rw [request, if_neg (by decide), if_pos rfl]
  · intro s b2 h
    exact apiErrMsg_ne_noLogsMsg s b2 h

/-- Witness for C3: a 204 response with a nonempty body, and the concrete
status 500 whose APIError message differs from the 204 message. -/
theorem C3_empty_result_witness :
    (500 < 200 ∨ 299 < 500) ∧
      request [] "" 204 [120] 0 = (⟨0, 0, 204, ""⟩, [], some noLogsMsg) ∧
      apiErrMsg 500 [98, 111, 111, 109] ≠ noLogsMsg :=
  ⟨by decide, (C3_empty_result [] "" [120] 0).1,
    (C3_empty_result [] "" [120] 0).2 500 [98, 111, 111, 109] (by decide)⟩

/-- Claim C4: for a status outside [200, 299] the classifier reads at most
1,000,000 bytes of the body, and returns a Meta carrying the status code,
duration and URL with Count = 0, together with the APIError message holding
the status and the (possibly truncated) body text. -/
theorem C4_api_error (sinks : List SinkSt) (u : String) (s : Nat)
    (body : List Nat) (dur : Int) (h : s < 200 ∨ 299 < s) :
    request sinks u s body dur =
      (⟨0, dur, s, u⟩, sinks, some (apiErrMsg s (body.take 1000000))) ∧
      (body.take 1000000).length ≤ 1000000 := by
  constructor
  · rw [request, if_pos h]
  · rw [List.length_take]
    exact Nat.min_le_left _ _

/-- Witness for C4: status 500 with body "boom". -/
theorem C4_api_error_witness :
    (500 < 200 ∨ 299 < 500) ∧
      (request [] "" 500 [98, 111, 111, 109] 0 =
        (⟨0, 0, 500, ""⟩, [],
          some (apiErrMsg 500 (([98, 111, 111, 109] : List Nat).take 1000000))) ∧
        (([98, 111, 111, 109] : List Nat).take 1000000).length ≤ 1000000) :=
  ⟨by decide, C4_api_error [] "" 500 [98, 111, 111, 109] 0 (by decide)⟩

end Logshare

namespace Logshare

/-- Claim C5 counterexample: library client construction performs no
sampling-rate validation: New succeeds with the out-of-range value 5.0 (no
ConfigurationError is raised), the value survives into the client, and at
build time buildURL renders it into the query as sample=5.0. -/
theorem C5_new_accepts_bad_sample_counterexample :
    New ("key") ("email") (some opts5) = Except.ok client5 ∧
      lookupParam (buildParams client5 []) ("sample") = some ['5', '.', '0'] := by
  constructor
  · rfl
  · have h1 : ¬(client5.byReceived = true ∧ client5.fields.length ≥ 1) := by
      simp [client5]
    have h2 : client5.sample ≠ 0 := by
      rw [show client5.sample = 5 from rfl]
      norm_num
    have h3 : ¬(client5.timestampFormat ≠ "") := by simp [client5]
    rw [buildParams, if_neg h1, if_pos h2, if_neg h3, lookupParam_vset_self]
    rw [show client5.sample = 5 from rfl]
    have h : round ((5 : ℚ) * 10) = (50 : ℤ) := by norm_num [round_eq]
    rw [formatFixed1, h]
    decide

/-- Claim C5 (amended): the out-of-range sampling check lives in the CLI's
config.Validate (flag validation, before any client exists), not in library
client construction: New accepts any sampling value without error and the
value survives to build time; any configured non-zero sampling value is
rendered in the query string with exactly one digit after the decimal
point. -/
theorem C5_sampling_validation (conf : CliConfig) (k e : String)
    (o : GoOptions) (c : Client)
    (hck : conf.apiKey ≠ "") (hce : conf.apiEmail ≠ "") (hcz : conf.zoneID ≠ "")
    (hs : conf.sample ≠ 0)
    (hrange : conf.sample < 1 / 10 ∨ 9 / 10 < conf.sample)
    (hk : k ≠ "") (he : e ≠ "") (hcs : c.sample ≠ 0) :
    cliValidate conf = some ("sample must be between 0.1 and 0.9") ∧
      (∃ c2, New k e (some o) = Except.ok c2 ∧ c2.sample = o.sample) ∧
      (∃ w, lookupParam (buildParams c []) ("sample") = some w ∧
        ∃ pre m, m < 10 ∧ w = pre ++ '.' :: [decChar m] ∧ '.' ∉ pre) := by
  refine ⟨?_, ?_, ?_⟩
  · have hcred : ¬(conf.apiKey = "" ∨ conf.apiEmail = "") := by
      rintro (h | h)
      · exact hck h
      · exact hce h
    rw [cliValidate, if_neg hcred, if_neg (fun h2 => hcz h2.1),
      if_pos ⟨hs, hrange⟩]
  · rcases o with ⟨ob, ot, os, ofld, od, omd⟩
    rcases ofld with _ | fs <;> rcases od with _ | d <;> rcases omd with _ | md <;>
      exact ⟨_, by rw [New, if_neg hk, if_neg he], rfl⟩
  · refine ⟨formatFixed1 c.sample, ?_, ?_⟩
    · rw [buildParams, if_pos hcs]
      by_cases hts : c.timestampFormat ≠ ""
      · rw [if_pos hts, lookupParam_vset_ne _ _ _ _ (by decide),
          lookupParam_vset_self]
      · rw [if_neg hts, lookupParam_vset_self]
    · refine ⟨(if round (c.sample * 10) < 0 then ['-'] else []) ++
        natDec ((round (c.sample * 10)).natAbs / 10),
        (round (c.sample * 10)).natAbs % 10,
        Nat.mod_lt _ (by norm_num), ?_, ?_⟩
      · rw [formatFixed1, natDec_single _ (Nat.mod_lt _ (by norm_num))]
      · intro hmem
        rcases List.mem_append.mp hmem with h | h
        · revert h
          split <;> intro h <;> simp at h
        · rcases natDec_chars _ _ h with ⟨m2, hm2, heq⟩
          exact (by decide : ∀ d, d < 10 → decChar d ≠ '.') m2 hm2 heq.symm

/-- Witness for C5: the CLI config with sample 5.0 is rejected by Validate,
while New with the same value succeeds and renders 5.0 at build time. -/
theorem C5_sampling_validation_witness :
    (("k" : String) ≠ "" ∧ ("e" : String) ≠ "" ∧ ("z" : String) ≠ "" ∧
      ("key" : String) ≠ "" ∧ ("email" : String) ≠ "") ∧
      (5 : ℚ) ≠ 0 ∧ ((5 : ℚ) < 1 / 10 ∨ 9 / 10 < (5 : ℚ)) ∧
      (cliValidate ⟨"k", "e", "z", "", 5, "", ""⟩ =
          some ("sample must be between 0.1 and 0.9") ∧
        (∃ c2, New ("key") ("email") (some opts5) = Except.ok c2 ∧
          c2.sample = opts5.sample) ∧
        (∃ w, lookupParam (buildParams client5 []) ("sample") = some w ∧
          ∃ pre m, m < 10 ∧ w = pre ++ '.' :: [decChar m] ∧ '.' ∉ pre)) :=
  ⟨⟨by decide, by decide, by decide, by decide, by decide⟩,
    rat_five_ne_zero, rat_five_out_of_range,
    C5_sampling_validation ⟨"k", "e", "z", "", 5, "", ""⟩ ("key") ("email")
      opts5 client5 (by decide) (by decide) (by decide) rat_five_ne_zero
      rat_five_out_of_range (by decide) (by decide) rat_five_ne_zero⟩

end Logshare

namespace Logshare

/-- Claim C6: the timestamp-mode URL builder always includes start, includes
end iff end > 0, and includes count iff count > 0; an omitted parameter never
appears in the resulting query values. -/
theorem C6_timestamp_params (c : Client) (start e cnt : Int) :
    hasParam (getFromTimestampParams c start e cnt) ("start") = true ∧
      (hasParam (getFromTimestampParams c start e cnt) ("end") = true ↔ e > 0) ∧
      (hasParam (getFromTimestampParams c start e cnt) ("count") = true ↔ cnt > 0) := by
  refine ⟨?_, ?_, ?_⟩
  · simp only [getFromTimestampParams]
    rw [hasParam_buildParams _ _ _ (by decide) (by decide) (by decide)]
    by_cases hcnt : cnt > 0
    · rw [if_pos hcnt, hasParam_vset_ne _ _ _ _ (by decide)]
      by_cases he : e > 0
      · rw [if_pos he, hasParam_vset_ne _ _ _ _ (by decide), hasParam_vset_self]
      · rw [if_neg he, hasParam_vset_self]
    · rw [if_neg hcnt]
      by_cases he : e > 0
      · rw [if_pos he, hasParam_vset_ne _ _ _ _ (by decide), hasParam_vset_self]
      · rw [if_neg he, hasParam_vset_self]
  · simp only [getFromTimestampParams]
    rw [hasParam_buildParams _ _ _ (by decide) (by decide) (by decide)]
    by_cases hcnt : cnt > 0 <;> by_cases he : e > 0
    · rw [if_pos hcnt, hasParam_vset_ne _ _ _ _ (by decide), if_pos he,
        hasParam_vset_self]
      simp [he]
    · rw [if_pos hcnt, hasParam_vset_ne _ _ _ _ (by decide), if_neg he,
        hasParam_vset_ne _ _ _ _ (by decide)]
      simp [hasParam, lookupParam, vset, he]
    · rw [if_neg hcnt, if_pos he, hasParam_vset_self]
      simp [he]
    · rw [if_neg hcnt, if_neg he, hasParam_vset_ne _ _ _ _ (by decide)]
      simp [hasParam, lookupParam, vset, he]
  · simp only [getFromTimestampParams]
    rw [hasParam_buildParams _ _ _ (by decide) (by decide) (by decide)]
    by_cases hcnt : cnt > 0
    · rw [if_pos hcnt, hasParam_vset_self]
      simp [hcnt]
    · rw [if_neg hcnt]
      by_cases he : e > 0
      · rw [if_pos he, hasParam_vset_ne _ _ _ _ (by decide),
          hasParam_vset_ne _ _ _ _ (by decide)]
        simp [hasParam, lookupParam, vset, hcnt]
      · rw [if_neg he, hasParam_vset_ne _ _ _ _ (by decide)]
        simp [hasParam, lookupParam, vset, hcnt]

/-- Claim C7 (the cursor-mode builder is modelled from the spec, its code not
being among the sources): for a non-empty resume cursor the built query binds
start_id to the cursor, carries no start parameter, and follows the same
optional rules — end iff end > 0 and count iff count > 0. -/
theorem C7_cursor_params (c : Client) (ray : String) (e cnt : Int)
    (_hray : ray ≠ "") :
    lookupParam (getFromRayIDParams c ray e cnt) ("start_id") = some ray.data ∧
      hasParam (getFromRayIDParams c ray e cnt) ("start") = false ∧
      (hasParam (getFromRayIDParams c ray e cnt) ("end") = true ↔ e > 0) ∧
      (hasParam (getFromRayIDParams c ray e cnt) ("count") = true ↔ cnt > 0) := by
  refine ⟨?_, ?_, ?_, ?_⟩
  · simp only [getFromRayIDParams]
    rw [lookupParam_buildParams _ _ _ (by decide) (by decide) (by decide)]
    by_cases hcnt : cnt > 0
    · rw [if_pos hcnt, lookupParam_vset_ne _ _ _ _ (by decide)]
      by_cases he : e > 0
      · rw [if_pos he, lookupParam_vset_ne _ _ _ _ (by decide),
          lookupParam_vset_self]
      · rw [if_neg he, lookupParam_vset_self]
    · rw [if_neg hcnt]
      by_cases he : e > 0
      · rw [if_pos he, lookupParam_vset_ne _ _ _ _ (by decide),
          lookupParam_vset_self]
      · rw [if_neg he, lookupParam_vset_self]
  · simp only [getFromRayIDParams]
    rw [hasParam_buildParams _ _ _ (by decide) (by decide) (by decide)]
    by_cases hcnt : cnt > 0 <;> by_cases he : e > 0
    · rw [if_pos hcnt, hasParam_vset_ne _ _ _ _ (by decide), if_pos he,
        hasParam_vset_ne _ _ _ _ (by decide)]
      simp [hasParam, lookupParam, vset]
    · rw [if_pos hcnt, hasParam_vset_ne _ _ _ _ (by decide), if_neg he]
      simp [hasParam, lookupParam, vset]
    · rw [if_neg hcnt, if_pos he, hasParam_vset_ne _ _ _ _ (by decide)]
      simp [hasParam, lookupParam, vset]
    · rw [if_neg hcnt, if_neg he]
      simp [hasParam, lookupParam, vset]
  · simp only [getFromRayIDParams]
    rw [hasParam_buildParams _ _ _ (by decide) (by decide) (by decide)]
    by_cases hcnt : cnt > 0 <;> by_cases he : e > 0
    · rw [if_pos hcnt, hasParam_vset_ne _ _ _ _ (by decide), if_pos he,
        hasParam_vset_self]
      simp [he]
    · rw [if_pos hcnt, hasParam_vset_ne _ _ _ _ (by decide), if_neg he,
        hasParam_vset_ne _ _ _ _ (by decide)]
      simp [hasParam, lookupParam, vset, he]
    · rw [if_neg hcnt, if_pos he, hasParam_vset_self]
      simp [he]
    · rw [if_neg hcnt, if_neg he, hasParam_vset_ne _ _ _ _ (by decide)]
      simp [hasParam, lookupParam, vset, he]
  · simp only [getFromRayIDParams]
    rw [hasParam_buildParams _ _ _ (by decide) (by decide) (by decide)]
    by_cases hcnt : cnt > 0
    · rw [if_pos hcnt, hasParam_vset_self]
      simp [hcnt]
    · rw [if_neg hcnt]
      by_cases he : e > 0
      · rw [if_pos he, hasParam_vset_ne _ _ _ _ (by decide),
          hasParam_vset_ne _ _ _ _ (by decide)]
        simp [hasParam, lookupParam, vset, hcnt]
      · rw [if_neg he, hasParam_vset_ne _ _ _ _ (by decide)]
        simp [hasParam, lookupParam, vset, hcnt]

/-- Witness for C7: cursor "ray1" with end and count both omitted. -/
theorem C7_cursor_params_witness :
    ("ray1" : String) ≠ "" ∧
      (lookupParam (getFromRayIDParams clientFields ("ray1") 0 0) ("start_id") =
        some ("ray1").data ∧
        hasParam (getFromRayIDParams clientFields ("ray1") 0 0) ("start") = false ∧
        (hasParam (getFromRayIDParams clientFields ("ray1") 0 0) ("end") = true ↔
          (0 : Int) > 0) ∧
        (hasParam (getFromRayIDParams clientFields ("ray1") 0 0) ("count") = true ↔
          (0 : Int) > 0)) :=
  ⟨by decide, C7_cursor_params clientFields ("ray1") 0 0 (by decide)⟩

/-- Claim C8: the fields query parameter is appended iff the client uses the
receipt-indexed variant AND a nonempty field allowlist was configured; under
the time-indexed variant it is silently omitted. -/
theorem C8_fields_param (c : Client) (p : Values)
    (h : lookupParam p ("fields") = none) :
    (hasParam (buildParams c p) ("fields") = true ↔
      (c.byReceived = true ∧ c.fields ≠ [])) := by
  rw [← fields_cond_iff]
  rw [buildParams]
  by_cases hf : (c.byReceived = true ∧ c.fields.length ≥ 1)
  · rw [if_pos hf]
    by_cases hsm : c.sample ≠ 0 <;> by_cases hts : c.timestampFormat ≠ ""
    · rw [if_pos hsm, if_pos hts, hasParam_vset_ne _ _ _ _ (by decide),
        hasParam_vset_ne _ _ _ _ (by decide), hasParam_vset_self]
      simp [hf]
    · rw [if_pos hsm, if_neg hts, hasParam_vset_ne _ _ _ _ (by decide),
        hasParam_vset_self]
      simp [hf]
    · rw [if_neg hsm, if_pos hts, hasParam_vset_ne _ _ _ _ (by decide),
        hasParam_vset_self]
      simp [hf]
    · rw [if_neg hsm, if_neg hts, hasParam_vset_self]
      simp [hf]
  · rw [if_neg hf]
    by_cases hsm : c.sample ≠ 0 <;> by_cases hts : c.timestampFormat ≠ ""
    · rw [if_pos hsm, if_pos hts, hasParam_vset_ne _ _ _ _ (by decide),
        hasParam_vset_ne _ _ _ _ (by decide), hasParam, h]
      simp [hf]
    · rw [if_pos hsm, if_neg hts, hasParam_vset_ne _ _ _ _ (by decide),
        hasParam, h]
      simp [hf]
    · rw [if_neg hsm, if_pos hts, hasParam_vset_ne _ _ _ _ (by decide),
        hasParam, h]
      simp [hf]
    · rw [if_neg hsm, if_neg hts, hasParam, h]
      simp [hf]

/-- Witness for C8: a received-variant client with a nonempty allowlist and an
empty starting query. -/
theorem C8_fields_param_witness :
    lookupParam ([] : Values) ("fields") = none ∧
      (hasParam (buildParams clientFields []) ("fields") = true ↔
        (clientFields.byReceived = true ∧ clientFields.fields ≠ [])) :=
  ⟨rfl, C8_fields_param clientFields [] rfl⟩

/-- Claim C9: with a nil Options pointer New defaults to the receipt-indexed
(received) variant, but with a non-nil Options whose ByReceived is the zero
value false it targets the time-indexed (requests) variant - the effective
default differs depending on whether an Options value is supplied at all. -/
theorem C9_default_variant (k e : String) (o : GoOptions)
    (hk : k ≠ "") (he : e ≠ "") (ho : o.byReceived = false) :
    (∃ c, New k e none = Except.ok c ∧ c.byReceived = true ∧
      ∀ z, buildPath c z =
        apiURL ++ ("/zones/") ++ z ++ ("/logs/") ++ ("received")) ∧
      (∃ c2, New k e (some o) = Except.ok c2 ∧ c2.byReceived = false ∧
        ∀ z, buildPath c2 z =
          apiURL ++ ("/zones/") ++ z ++ ("/logs/") ++ ("requests")) := by
  constructor
  · refine ⟨⟨apiURL, k, e, true, 0, "", [], [stdoutSink]⟩, ?_, rfl, ?_⟩
    · rw [New, if_neg hk, if_neg he]
    · intro z
      rfl
  · rcases o with ⟨ob, ot, os, ofld, od, omd⟩
    have hob : ob = false := ho
    subst hob
    rcases ofld with _ | fs <;> rcases od with _ | d <;> rcases omd with _ | md <;>
      (rw [New, if_neg hk, if_neg he]; exact ⟨_, rfl, rfl, fun z => rfl⟩)

/-- Witness for C9: concrete credentials and the zero-valued Options record. -/
theorem C9_default_variant_witness :
    ("key" : String) ≠ "" ∧ ("email" : String) ≠ "" ∧
      optsZero.byReceived = false ∧
      ((∃ c, New ("key") ("email") none = Except.ok c ∧ c.byReceived = true ∧
        ∀ z, buildPath c z =
          apiURL ++ ("/zones/") ++ z ++ ("/logs/") ++ ("received")) ∧
        (∃ c2, New ("key") ("email") (some optsZero) = Except.ok c2 ∧
          c2.byReceived = false ∧
          ∀ z, buildPath c2 z =
            apiURL ++ ("/zones/") ++ z ++ ("/logs/") ++ ("requests"))) :=
  ⟨by decide, by decide, rfl,
    C9_default_variant ("key") ("email") optsZero (by decide) (by decide) rfl⟩

/-- Claim C10: the scanner's buffered bytes — the streaming component's only
per-record state — never exceed the 64 KiB hard cap, and, while no scan error
has occurred, never exceed the length of the longest newline-delimited record
of the whole body, however large the remaining body is: no record is buffered
beyond what is needed to find its newline boundary. -/
theorem C10_memory_bound (body p q : List Nat) (h : body = p ++ q) :
    (p.foldl scanStep ⟨[], [], false⟩).buf.length ≤ maxTokenSize ∧
      ((p.foldl scanStep ⟨[], [], false⟩).err = false →
        (p.foldl scanStep ⟨[], [], false⟩).buf.length ≤ maxSeg body) := by
  refine ⟨(scanFold_inv p).1, fun herr => ?_⟩
  rw [(scanFold_inv p).2 herr, h]
  exact le_trans (lastSeg_le_maxSeg p) (maxSeg_mono p q)

/-- Witness for C10: a two-record body split after its first record. -/
theorem C10_memory_bound_witness :
    ([97, 10, 98] : List Nat) = [97, 10] ++ [98] ∧
      ((([97, 10] : List Nat).foldl scanStep ⟨[], [], false⟩).buf.length ≤
        maxTokenSize ∧
        ((([97, 10] : List Nat).foldl scanStep ⟨[], [], false⟩).err = false →
          (([97, 10] : List Nat).foldl scanStep ⟨[], [], false⟩).buf.length ≤
            maxSeg [97, 10, 98])) :=
  ⟨rfl, C10_memory_bound [97, 10, 98] [97, 10] [98] rfl⟩

end Logshare
